import Mathlib

/-!
Shallow embedding of the trajectory-reconstruction pipeline of `src/data_tools.py`:
coordinate-column selection for the projector (`data_convert_to_planar`), the
distance-based resampler (`data_filter_points_by_distance`), the temporal
differencer (`parse_time_and_compute_dt`), the kinematics estimator
(`data_compute_heading_from_xy`, `data_compute_yaw_rate_from_heading`) and the
Savitzky-Golay smoothing stage (`data_smooth_gps_savitzky`).

Pandas DataFrames are modelled as an ordered list of rows together with a list of
column names; a row maps a column name to a real value.  Float arithmetic is
modelled by real arithmetic; float NaN / infinity cells (the results of
`Series.diff()` on the first row and of division by a zero time delta) are
modelled by `Option ℝ` with `none` as the undefined sentinel.
-/

/-- A pandas DataFrame restricted to what the claims need: named columns and an
ordered list of rows, each row a map from column name to numeric value. -/
structure DataFrame where
  columns : List String
  rows : List (String → ℝ)

/-- Character-list version of a string prefix test (structural recursion, so
that concrete instances evaluate): `leadingChars pre s` holds iff `pre` is an
initial segment of `s`. -/
def leadingChars : List Char → List Char → Bool
  | [], _ => true
  | _ :: _, [] => false
  | a :: as, b :: bs => a == b && leadingChars as bs

/-- `str.startswith(pre)` of Python: `pre` is an initial segment of `s`. -/
def strStartsWith (s pre : String) : Bool := leadingChars pre.data s.data

/-- The column-selection logic of `data_convert_to_planar`
(src/data_tools.py lines 39-100).  Returns the latitude column, longitude column
and the selected smoothing method that the subsequent pyproj transform operates
on, or the ValueError the function raises.  When more than one smoothed latitude
column is present the function opens a tkinter dialog; `guiChoice` is the method
string that dialog returns (its read-only dropdown defaults to the first
variant's method name, so closing the window yields that default).  The planar
transform itself adds no error path relevant to the claims and is not modelled. -/
def smoothingSelection (columns : List String) (configLat configLon guiChoice : String) :
    Except String (String × String × String) :=
  match columns.filter (fun c => strStartsWith c ("GPS_lat_smooth_")) with
  | [] => Except.ok (configLat, configLon, ("none"))
  | [single] =>
      Except.ok (single, single.replace ("GPS_lat") ("GPS_lon"),
        (single.splitOn ("_")).getLastD (""))
  | _ :: _ :: _ =>
      if (("GPS_lat_smooth_") ++ guiChoice) ∈ columns ∧
          (("GPS_lon_smooth_") ++ guiChoice) ∈ columns then
        Except.ok ((("GPS_lat_smooth_") ++ guiChoice, ("GPS_lon_smooth_") ++ guiChoice,
          guiChoice))
      else
        Except.error (("Invalid selection: ") ++ guiChoice ++ (". Columns ") ++
          (("GPS_lat_smooth_") ++ guiChoice) ++ (" and ") ++
          (("GPS_lon_smooth_") ++ guiChoice) ++ (" not found."))

/-- `scipy.signal.savgol_filter` in its default mode, as called by
`data_smooth_gps_savitzky` (src/data_tools.py lines 321-322): with the default
mode `interp` it raises ValueError when `window_length` exceeds the number of
samples, and `savgol_coeffs` raises when `polyorder` is not smaller than
`window_length`.  The numeric smoothing kernel is kept abstract as `kernel`
because no claim depends on the smoothed values, only on the error behaviour. -/
def savgol_filter (kernel : List ℝ → List ℝ) (xs : List ℝ)
    (window_length polyorder : ℕ) : Except String (List ℝ) :=
  if xs.length < window_length then
    Except.error ("If mode is interp, window_length must be less than or equal to the size of x.")
  else if window_length ≤ polyorder then
    Except.error ("polyorder must be less than window_length.")
  else Except.ok (kernel xs)

/-- `data_smooth_gps_savitzky` (src/data_tools.py lines 294-324): checks that the
configuration carries `lat_col` and `lon_col` (KeyError otherwise), then applies
the Savitzky-Golay filter with the fixed window length 51 and polynomial order 2
to the latitude and longitude columns. -/
def data_smooth_gps_savitzky (kernel : List ℝ → List ℝ) (hasLatCol hasLonCol : Bool)
    (lats lons : List ℝ) : Except String (List ℝ × List ℝ) :=
  if hasLatCol && hasLonCol then
    match savgol_filter kernel lats 51 2 with
    | Except.error e => Except.error e
    | Except.ok a =>
        match savgol_filter kernel lons 51 2 with
        | Except.error e => Except.error e
        | Except.ok b => Except.ok (a, b)
  else Except.error ("Configuration must include lat_col and lon_col.")

noncomputable section

/-- Euclidean planar distance between two points:
`np.linalg.norm(coords[i] - last_retained_point)` in
`data_filter_points_by_distance` (src/data_tools.py line 160). -/
def planarDist (p q : ℝ × ℝ) : ℝ := Real.sqrt ((p.1 - q.1) ^ 2 + (p.2 - q.2) ^ 2)

open Classical in
/-- The loop of `data_filter_points_by_distance` (src/data_tools.py lines 158-163):
starting from position `i` with `last` the most recently retained point, collect
the indices of the points whose distance to the last retained point is at least
`minD`, updating the last retained point whenever an index is kept. -/
def retainedFrom (minD : ℝ) : ℝ × ℝ → ℕ → List (ℝ × ℝ) → List ℕ
  | _, _, [] => []
  | last, i, p :: ps =>
      if minD ≤ planarDist p last then i :: retainedFrom minD p (i + 1) ps
      else retainedFrom minD last (i + 1) ps

/-- `retained_indices` of `data_filter_points_by_distance`
(src/data_tools.py lines 154-163): index 0 is always kept, the loop then scans
the remaining points from index 1 with the first point as last retained point. -/
def retained_indices (minD : ℝ) : List (ℝ × ℝ) → List ℕ
  | [] => []
  | p :: ps => 0 :: retainedFrom minD p 1 ps

/-- `data_filter_points_by_distance` restricted to its coordinate content
(src/data_tools.py lines 140-166): on an empty input return it unchanged,
otherwise select the rows at the retained indices (`df.iloc[retained_indices]`),
in order. -/
def resampleCoords (minD : ℝ) (coords : List (ℝ × ℝ)) : List (ℝ × ℝ) :=
  if coords.isEmpty then coords
  else (retained_indices minD coords).filterMap (fun i => coords[i]?)

/-- Extraction of the coordinate pair of a row:
`df[[x_col, y_col]].to_numpy()` (src/data_tools.py line 152), per row. -/
def rowXY (xCol yCol : String) (row : String → ℝ) : ℝ × ℝ := (row xCol, row yCol)

/-- `data_filter_points_by_distance` (src/data_tools.py lines 116-171) at
DataFrame level: return an empty frame unchanged; then validate that the
configured x column and y column exist (ValueError otherwise, x checked first);
then keep the rows at the retained indices and set the constant `min_distance`
column on the result. -/
def data_filter_points_by_distance (xCol yCol : String) (minD : ℝ) (df : DataFrame) :
    Except String DataFrame :=
  if df.rows.isEmpty then Except.ok df
  else if xCol ∉ df.columns then
    Except.error (("Missing column ") ++ xCol)
  else if yCol ∉ df.columns then
    Except.error (("Missing column ") ++ yCol)
  else
    Except.ok
      { columns :=
          if ("min_distance") ∈ df.columns then df.columns
          else df.columns ++ [("min_distance")]
        rows :=
          ((retained_indices minD (df.rows.map (rowXY xCol yCol))).filterMap
              (fun i => df.rows[i]?)).map
            (fun row => Function.update row ("min_distance") minD) }

open Classical in
/-- The same greedy scan as `retainedFrom`, but returning the rows themselves
rather than their indices; `f` extracts the planar coordinates of a row
(for a bare coordinate list `f` is the identity, for a DataFrame it reads the
x and y columns).  Used to relate the index-based implementation to the
row sequence it selects. -/
def keepAux {α : Type} (f : α → ℝ × ℝ) (minD : ℝ) : ℝ × ℝ → List α → List α
  | _, [] => []
  | last, r :: rs =>
      if minD ≤ planarDist (f r) last then r :: keepAux f minD (f r) rs
      else keepAux f minD last rs

open Classical in
/-- Resampler contract following the spec's words, tail part: a subsequent
sample is retained iff its Euclidean planar distance to the last retained
sample is ≥ `min_distance`. -/
def specResampleAux (minD : ℝ) : ℝ × ℝ → List (ℝ × ℝ) → List (ℝ × ℝ)
  | _, [] => []
  | lastRetained, p :: ps =>
      if planarDist p lastRetained ≥ minD then p :: specResampleAux minD p ps
      else specResampleAux minD lastRetained ps

/-- Resampler contract following the spec's words: the first sample is always
retained, and each subsequent sample is retained iff its Euclidean planar
distance to the last retained sample is ≥ `min_distance`, preserving order. -/
def specResample (minD : ℝ) : List (ℝ × ℝ) → List (ℝ × ℝ)
  | [] => []
  | p :: ps => p :: specResampleAux minD p ps

/-- Tail of `Series.diff()` on a parsed timestamp column: each entry is the
current timestamp minus its predecessor, in seconds. -/
def dtAux (prev : ℝ) : List ℝ → List ℝ
  | [] => []
  | t :: ts => (t - prev) :: dtAux t ts

/-- `parse_time_and_compute_dt` (src/data_tools.py lines 173-197) after the
timestamp column has been parsed: timestamps are modelled as seconds since an
epoch, `df[datetime_col].diff().dt.total_seconds()` yields NaN (here `none`)
for the first row and the consecutive difference in seconds for every later
row. -/
def parse_time_and_compute_dt : List ℝ → List (Option ℝ)
  | [] => []
  | t :: ts => none :: (dtAux t ts).map some

/-- Floating-point remainder with divisor 360 as computed by numpy's `%`
(floored modulo, result in `[0, 360)`). -/
def fmod360 (v : ℝ) : ℝ := v - 360 * (Int.floor (v / 360) : ℝ)

open Classical in
/-- `np.arctan2` over the reals (signed zeros collapse to zero):
the angle of the vector `(x, y)` in `(-pi, pi]`, with `atan2 0 0 = 0`. -/
def atan2 (y x : ℝ) : ℝ :=
  if 0 < x then Real.arctan (y / x)
  else if x < 0 then
    if 0 ≤ y then Real.arctan (y / x) + Real.pi
    else Real.arctan (y / x) - Real.pi
  else
    if 0 < y then Real.pi / 2
    else if y < 0 then -(Real.pi / 2)
    else 0

/-- One heading value of `data_compute_heading_from_xy`
(src/data_tools.py lines 229-238): `np.arctan2(dy, dx)` converted to degrees
(`rad * 180 / pi`) and shifted into `[0, 360)` by `(deg + 360) % 360`. -/
def headingDeg (p q : ℝ × ℝ) : ℝ :=
  fmod360 (atan2 (q.2 - p.2) (q.1 - p.1) * (180 / Real.pi) + 360)

/-- Tail of the heading column: one heading per consecutive pair of points. -/
def headingAux (prev : ℝ × ℝ) : List (ℝ × ℝ) → List ℝ
  | [] => []
  | q :: qs => headingDeg prev q :: headingAux q qs

/-- `data_compute_heading_from_xy` (src/data_tools.py lines 200-243) on the
sequence of planar points: `x.diff()` and `y.diff()` are NaN on the first row,
so the first heading is undefined (`none`); every later row gets the
normalized `arctan2` heading of its step from the previous row. -/
def data_compute_heading_from_xy : List (ℝ × ℝ) → List (Option ℝ)
  | [] => []
  | p :: ps => none :: (headingAux p ps).map some

/-- The wrap of `data_compute_yaw_rate_from_heading`
(src/data_tools.py line 283): `(heading_diff + 180) % 360 - 180`, the
minimal-rotation representative of a heading difference in `[-180, 180)`. -/
def wrap180 (d : ℝ) : ℝ := fmod360 (d + 180) - 180

open Classical in
/-- One yaw-rate cell (src/data_tools.py lines 279-287): the wrapped heading
difference divided by the row's time delta.  A missing time delta (NaN, the
first row of `dt`) or a zero time delta yields the undefined / infinity float
sentinel, modelled as `none`; it is never a silent zero. -/
def yawCell (prevH h : ℝ) (dt : Option ℝ) : Option ℝ :=
  match dt with
  | none => none
  | some t => if t = 0 then none else some (wrap180 (h - prevH) / t)

/-- Tail of the yaw-rate column: one cell per consecutive pair of headings,
paired with the time delta of the current row. -/
def yawAux (prev : ℝ) : List ℝ → List (Option ℝ) → List (Option ℝ)
  | h :: hs, d :: ds => yawCell prev h d :: yawAux h hs ds
  | _, _ => []

/-- `data_compute_yaw_rate_from_heading` (src/data_tools.py lines 246-292) on a
heading column (degrees, defined entries) and a dt column (seconds, `none` for
the NaN of the first row): `heading.diff()` is NaN on the first row, so the
first yaw rate is undefined; row `i ≥ 1` divides the wrapped difference of
headings `i-1, i` by `dt[i]`. -/
def data_compute_yaw_rate_from_heading (hs : List ℝ) (ds : List (Option ℝ)) :
    List (Option ℝ) :=
  match hs, ds with
  | h :: hs', _ :: ds' => none :: yawAux h hs' ds'
  | _, _ => []

end

/-! ### Helper lemmas: the resampler -/

lemma planarDist_nonneg (p q : ℝ × ℝ) : 0 ≤ planarDist p q :=
  Real.sqrt_nonneg _

lemma specResampleAux_cons (minD : ℝ) (last p : ℝ × ℝ) (ps : List (ℝ × ℝ)) :
    specResampleAux minD last (p :: ps) =
      if planarDist p last ≥ minD then p :: specResampleAux minD p ps
      else specResampleAux minD last ps := by
  simp [specResampleAux]

lemma keepAux_cons {α : Type} (f : α → ℝ × ℝ) (minD : ℝ) (last : ℝ × ℝ) (r : α)
    (rs : List α) :
    keepAux f minD last (r :: rs) =
      if minD ≤ planarDist (f r) last then r :: keepAux f minD (f r) rs
      else keepAux f minD last rs := by
  simp [keepAux]

lemma keepAux_eq_spec (minD : ℝ) :
    ∀ (ps : List (ℝ × ℝ)) (last : ℝ × ℝ),
      keepAux id minD last ps = specResampleAux minD last ps := by
  intro ps
  induction ps with
  | nil => intro last; simp [keepAux, specResampleAux]
  | cons p ps ih =>
    intro last
    rw [keepAux_cons, specResampleAux_cons]
    by_cases hc : minD ≤ planarDist p last
    · rw [if_pos (by simpa using hc), if_pos (by simpa using hc), ih]
      simp [id]
    · rw [if_neg (by simpa using hc), if_neg (by simpa using hc), ih]

lemma retainedFrom_filterMap {α : Type} (f : α → ℝ × ℝ) (minD : ℝ) :
    ∀ (rs : List α) (cs : List (ℝ × ℝ)), cs = rs.map f →
      ∀ (last : ℝ × ℝ) (i : ℕ) (full : List α),
        (∀ k, full[i + k]? = rs[k]?) →
        (retainedFrom minD last i cs).filterMap (fun j => full[j]?) =
          keepAux f minD last rs := by
  intro rs
  induction rs with
  | nil =>
    intro cs hcs last i full _
    subst hcs
    simp [retainedFrom, keepAux]
  | cons r rs ih =>
    intro cs hcs last i full h
    subst hcs
    have h0 : full[i]? = some r := by simpa using h 0
    have h1 : ∀ k, full[i + 1 + k]? = rs[k]? := by
      intro k
      have hk := h (k + 1)
      rw [show i + (k + 1) = i + 1 + k by omega] at hk
      simpa using hk
    rw [List.map_cons]
    by_cases hc : minD ≤ planarDist (f r) last
    · rw [keepAux_cons, if_pos hc]
      simp only [retainedFrom, if_pos hc, List.filterMap_cons, h0]
      rw [ih (rs.map f) rfl (f r) (i + 1) full h1]
    · rw [keepAux_cons, if_neg hc]
      simp only [retainedFrom, if_neg hc]
      rw [ih (rs.map f) rfl last (i + 1) full h1]

lemma resampleCoords_eq_spec (minD : ℝ) (coords : List (ℝ × ℝ)) :
    resampleCoords minD coords = specResample minD coords := by
  cases coords with
  | nil => simp [resampleCoords, specResample]
  | cons p ps =>
    have h0 : ((p :: ps : List (ℝ × ℝ)))[0]? = some p := by simp
    have hk : ∀ k, ((p :: ps : List (ℝ × ℝ)))[1 + k]? = ps[k]? := by
      intro k
      rw [show 1 + k = k + 1 by omega]
      simp
    simp only [resampleCoords, List.isEmpty_cons, Bool.false_eq_true, if_false,
      retained_indices, List.filterMap_cons, h0, specResample]
    rw [retainedFrom_filterMap id minD ps ps (List.map_id ps).symm p 1 (p :: ps) hk,
      keepAux_eq_spec]

lemma specResampleAux_idem (minD : ℝ) :
    ∀ (ps : List (ℝ × ℝ)) (last : ℝ × ℝ),
      specResampleAux minD last (specResampleAux minD last ps) =
        specResampleAux minD last ps := by
  intro ps
  induction ps with
  | nil => intro last; simp [specResampleAux]
  | cons p ps ih =>
    intro last
    rw [specResampleAux_cons]
    by_cases hc : planarDist p last ≥ minD
    · rw [if_pos hc, specResampleAux_cons, if_pos hc, ih p]
    · rw [if_neg hc, ih last]

lemma specResampleAux_chain (minD : ℝ) :
    ∀ (ps : List (ℝ × ℝ)) (last : ℝ × ℝ),
      List.Chain' (fun a b => minD ≤ planarDist b a)
        (last :: specResampleAux minD last ps) := by
  intro ps
  induction ps with
  | nil => intro last; simp [specResampleAux]
  | cons p ps ih =>
    intro last
    rw [specResampleAux_cons]
    by_cases hc : planarDist p last ≥ minD
    · rw [if_pos hc]
      exact List.chain'_cons.mpr ⟨hc, ih p⟩
    · rw [if_neg hc]
      exact ih last

lemma specResampleAux_sublist (minD : ℝ) :
    ∀ (ps : List (ℝ × ℝ)) (last : ℝ × ℝ),
      (specResampleAux minD last ps).Sublist ps := by
  intro ps
  induction ps with
  | nil => intro last; simp [specResampleAux]
  | cons p ps ih =>
    intro last
    rw [specResampleAux_cons]
    by_cases hc : planarDist p last ≥ minD
    · rw [if_pos hc]
      exact (ih p).cons₂ p
    · rw [if_neg hc]
      exact (ih last).cons p

lemma keepAux_of_nonpos {α : Type} (f : α → ℝ × ℝ) {minD : ℝ} (hm : minD ≤ 0) :
    ∀ (rs : List α) (last : ℝ × ℝ), keepAux f minD last rs = rs := by
  intro rs
  induction rs with
  | nil => intro last; simp [keepAux]
  | cons r rs ih =>
    intro last
    rw [keepAux_cons, if_pos (le_trans hm (planarDist_nonneg _ _)), ih]

/-! ### Helper lemmas: modulo 360, atan2, heading, yaw rate, time deltas -/

lemma fmod360_eq (v : ℝ) (n : ℤ) (h1 : (n : ℝ) ≤ v / 360) (h2 : v / 360 < (n : ℝ) + 1) :
    fmod360 v = v - 360 * (n : ℝ) := by
  unfold fmod360
  rw [Int.floor_eq_iff.mpr ⟨h1, by linarith⟩]

lemma fmod360_nonneg (v : ℝ) : 0 ≤ fmod360 v := by
  unfold fmod360
  have h := Int.floor_le (v / 360)
  have hv : (360 : ℝ) * (v / 360) = v := by field_simp
  nlinarith

lemma fmod360_lt (v : ℝ) : fmod360 v < 360 := by
  unfold fmod360
  have h := Int.lt_floor_add_one (v / 360)
  have hv : (360 : ℝ) * (v / 360) = v := by field_simp
  nlinarith

lemma headingDeg_mem (p q : ℝ × ℝ) : 0 ≤ headingDeg p q ∧ headingDeg p q < 360 :=
  ⟨fmod360_nonneg _, fmod360_lt _⟩

lemma atan2_east : atan2 0 1 = 0 := by
  norm_num [atan2, Real.arctan_zero]

lemma atan2_north : atan2 1 0 = Real.pi / 2 := by
  norm_num [atan2]

lemma headingDeg_east : headingDeg (0, 0) (1, 0) = 0 := by
  have h0 : headingDeg (0, 0) (1, 0) = fmod360 (atan2 0 1 * (180 / Real.pi) + 360) := by
    unfold headingDeg
    norm_num
  rw [h0, atan2_east, show (0 : ℝ) * (180 / Real.pi) + 360 = 360 by ring,
    fmod360_eq 360 1 (by norm_num) (by norm_num)]
  norm_num

lemma headingDeg_north : headingDeg (0, 0) (0, 1) = 90 := by
  have h0 : headingDeg (0, 0) (0, 1) = fmod360 (atan2 1 0 * (180 / Real.pi) + 360) := by
    unfold headingDeg
    norm_num
  have h1 : Real.pi / 2 * (180 / Real.pi) + 360 = 450 := by
    have hπ := Real.pi_ne_zero
    field_simp
    ring
  rw [h0, atan2_north, h1, fmod360_eq 450 1 (by norm_num) (by norm_num)]
  norm_num

lemma wrap180_bounds (d : ℝ) : -180 ≤ wrap180 d ∧ wrap180 d < 180 := by
  unfold wrap180
  constructor
  · linarith [fmod360_nonneg (d + 180)]
  · linarith [fmod360_lt (d + 180)]

lemma wrap180_wrap_up : wrap180 (1 - 359) = 2 := by
  unfold wrap180
  rw [show (1 : ℝ) - 359 + 180 = -178 by norm_num,
    fmod360_eq (-178) (-1) (by norm_num) (by norm_num)]
  norm_num

lemma wrap180_wrap_down : wrap180 (359 - 1) = -2 := by
  unfold wrap180
  rw [show (359 : ℝ) - 1 + 180 = 538 by norm_num,
    fmod360_eq 538 1 (by norm_num) (by norm_num)]
  norm_num

lemma headingAux_getElem :
    ∀ (l : List (ℝ × ℝ)) (prev : ℝ × ℝ) (i : ℕ) (a b : ℝ × ℝ),
      (prev :: l)[i]? = some a → l[i]? = some b →
      (headingAux prev l)[i]? = some (headingDeg a b) := by
  intro l
  induction l with
  | nil => intro prev i a b _ hb; simp at hb
  | cons q qs ih =>
    intro prev i a b ha hb
    match i with
    | 0 =>
      simp only [List.getElem?_cons_zero, Option.some.injEq] at ha hb
      subst ha; subst hb
      simp [headingAux]
    | i + 1 =>
      simp only [List.getElem?_cons_succ] at ha hb
      simpa [headingAux] using ih q i a b ha hb

lemma headingAux_mem :
    ∀ (l : List (ℝ × ℝ)) (prev : ℝ × ℝ) (x : ℝ),
      x ∈ headingAux prev l → 0 ≤ x ∧ x < 360 := by
  intro l
  induction l with
  | nil => intro prev x hx; simp [headingAux] at hx
  | cons q qs ih =>
    intro prev x hx
    rcases (by simpa [headingAux] using hx : x = headingDeg prev q ∨ x ∈ headingAux q qs) with
      h | h
    · subst h; exact headingDeg_mem prev q
    · exact ih q x h

lemma dtAux_getElem :
    ∀ (l : List ℝ) (prev : ℝ) (i : ℕ) (a b : ℝ),
      (prev :: l)[i]? = some a → l[i]? = some b →
      (dtAux prev l)[i]? = some (b - a) := by
  intro l
  induction l with
  | nil => intro prev i a b _ hb; simp at hb
  | cons q qs ih =>
    intro prev i a b ha hb
    match i with
    | 0 =>
      simp only [List.getElem?_cons_zero, Option.some.injEq] at ha hb
      subst ha; subst hb
      simp [dtAux]
    | i + 1 =>
      simp only [List.getElem?_cons_succ] at ha hb
      simpa [dtAux] using ih q i a b ha hb

lemma dtAux_pos_of_chain :
    ∀ (l : List ℝ) (prev : ℝ),
      List.Chain' (· < ·) (prev :: l) → ∀ v ∈ dtAux prev l, 0 < v := by
  intro l
  induction l with
  | nil => intro prev _ v hv; simp [dtAux] at hv
  | cons q qs ih =>
    intro prev hc v hv
    have h1 : prev < q := (List.chain'_cons.mp hc).1
    have h2 : List.Chain' (· < ·) (q :: qs) := (List.chain'_cons.mp hc).2
    rcases (by simpa [dtAux] using hv : v = q - prev ∨ v ∈ dtAux q qs) with h | h
    · subst h; linarith
    · exact ih q h2 v h

lemma yawAux_getElem :
    ∀ (hs : List ℝ) (ds : List (Option ℝ)) (prev : ℝ) (i : ℕ) (h0 h1 : ℝ) (d : Option ℝ),
      (prev :: hs)[i]? = some h0 → hs[i]? = some h1 → ds[i]? = some d →
      (yawAux prev hs ds)[i]? = some (yawCell h0 h1 d) := by
  intro hs
  induction hs with
  | nil => intro ds prev i h0 h1 d _ hb _; simp at hb
  | cons h hs ih =>
    intro ds prev i h0 h1 d ha hb hd
    cases ds with
    | nil => simp at hd
    | cons dd ds =>
      match i with
      | 0 =>
        simp only [List.getElem?_cons_zero, Option.some.injEq] at ha hb hd
        subst ha; subst hb; subst hd
        simp [yawAux]
      | i + 1 =>
        simp only [List.getElem?_cons_succ] at ha hb hd
        simpa [yawAux] using ih ds h i h0 h1 d ha hb hd

/-! ### Claim theorems -/

/-- C1: for every non-empty coordinate trace and every `min_distance`, the
Resampler (`data_filter_points_by_distance`, embedded on its coordinate content
as `resampleCoords`) returns exactly the subsequence described by the spec: the
first sample is retained and each subsequent sample is retained iff its planar
Euclidean distance to the most recently retained sample is ≥ `min_distance`
(`specResample`), and the output is a subsequence of the input in the original
relative order. -/
theorem resampler_matches_spec (minD : ℝ) (coords : List (ℝ × ℝ)) (h : coords ≠ []) :
    resampleCoords minD coords = specResample minD coords ∧
    (resampleCoords minD coords).Sublist coords := by
  refine ⟨resampleCoords_eq_spec minD coords, ?_⟩
  rw [resampleCoords_eq_spec]
  obtain ⟨p, ps, rfl⟩ := List.exists_cons_of_ne_nil h
  show (p :: specResampleAux minD p ps).Sublist (p :: ps)
  exact (specResampleAux_sublist minD ps p).cons₂ p

theorem resampler_matches_spec_witness :
    ([((0 : ℝ), (0 : ℝ))] ≠ ([] : List (ℝ × ℝ))) ∧
    (resampleCoords 1 [((0 : ℝ), (0 : ℝ))] = specResample 1 [((0 : ℝ), (0 : ℝ))] ∧
      (resampleCoords 1 [((0 : ℝ), (0 : ℝ))]).Sublist [((0 : ℝ), (0 : ℝ))]) :=
  ⟨by simp, resampler_matches_spec 1 [((0 : ℝ), (0 : ℝ))] (by simp)⟩

/-- C2: applying the Resampler twice with the same `min_distance` yields the
same retained sequence as applying it once (for every trace, empty included). -/
theorem resampler_idempotent (minD : ℝ) (coords : List (ℝ × ℝ)) :
    resampleCoords minD (resampleCoords minD coords) = resampleCoords minD coords := by
  rw [resampleCoords_eq_spec minD coords, resampleCoords_eq_spec]
  cases coords with
  | nil => simp [specResample]
  | cons p ps =>
    show specResample minD (p :: specResampleAux minD p ps) =
      p :: specResampleAux minD p ps
    show p :: specResampleAux minD p (specResampleAux minD p ps) =
      p :: specResampleAux minD p ps
    rw [specResampleAux_idem]

/-- C3: for every non-empty trace, consecutive rows of the Resampler's output
are at planar distance ≥ `min_distance`, the first input sample heads the
output, and for `min_distance = 0` the output equals the input. -/
theorem resampler_invariants (minD : ℝ) (coords : List (ℝ × ℝ)) (h : coords ≠ []) :
    List.Chain' (fun a b => minD ≤ planarDist b a) (resampleCoords minD coords) ∧
    (resampleCoords minD coords).head? = coords.head? ∧
    (minD = 0 → resampleCoords minD coords = coords) := by
  obtain ⟨p, ps, rfl⟩ := List.exists_cons_of_ne_nil h
  rw [resampleCoords_eq_spec]
  refine ⟨?_, ?_, ?_⟩
  · show List.Chain' (fun a b => minD ≤ planarDist b a)
      (p :: specResampleAux minD p ps)
    exact specResampleAux_chain minD ps p
  · rfl
  · intro h0
    subst h0
    show p :: specResampleAux 0 p ps = p :: ps
    rw [← keepAux_eq_spec, keepAux_of_nonpos id le_rfl]

theorem resampler_invariants_witness :
    ([((0 : ℝ), (0 : ℝ))] ≠ ([] : List (ℝ × ℝ))) ∧
    (List.Chain' (fun a b => (0 : ℝ) ≤ planarDist b a)
        (resampleCoords 0 [((0 : ℝ), (0 : ℝ))]) ∧
      (resampleCoords 0 [((0 : ℝ), (0 : ℝ))]).head? = ([((0 : ℝ), (0 : ℝ))]).head? ∧
      ((0 : ℝ) = 0 → resampleCoords 0 [((0 : ℝ), (0 : ℝ))] = [((0 : ℝ), (0 : ℝ))])) :=
  ⟨by simp, resampler_invariants 0 [((0 : ℝ), (0 : ℝ))] (by simp)⟩

/-- C4: on a trace of planar points, row `i ≥ 1` of the heading column equals
`atan2(y[i]-y[i-1], x[i]-x[i-1])` converted to degrees and normalized by
`(deg + 360) mod 360`; every defined heading lies in `[0, 360)`; a due-east
step gives 0 degrees and a due-north step gives 90 degrees; the heading of the
first row is undefined. -/
theorem heading_properties (p : ℝ × ℝ) (rest : List (ℝ × ℝ)) :
    (data_compute_heading_from_xy (p :: rest))[0]? = some none ∧
    (∀ (i : ℕ) (a b : ℝ × ℝ), (p :: rest)[i]? = some a → (p :: rest)[i + 1]? = some b →
      (data_compute_heading_from_xy (p :: rest))[i + 1]? =
        some (some (fmod360 (atan2 (b.2 - a.2) (b.1 - a.1) * (180 / Real.pi) + 360)))) ∧
    (∀ v : ℝ, some v ∈ data_compute_heading_from_xy (p :: rest) → 0 ≤ v ∧ v < 360) ∧
    headingDeg (0, 0) (1, 0) = 0 ∧ headingDeg (0, 0) (0, 1) = 90 := by
  refine ⟨by simp [data_compute_heading_from_xy], ?_, ?_, headingDeg_east, headingDeg_north⟩
  · intro i a b ha hb
    have hb' : rest[i]? = some b := by simpa using hb
    have hidx := headingAux_getElem rest p i a b ha hb'
    have hgoal : (data_compute_heading_from_xy (p :: rest))[i + 1]? =
        ((headingAux p rest).map some)[i]? := by
      simp [data_compute_heading_from_xy]
    rw [hgoal]
    simp [hidx, headingDeg]
  · intro v hv
    have hv' : v ∈ headingAux p rest := by
      rcases (by simpa [data_compute_heading_from_xy] using hv :
          (some v : Option ℝ) = none ∨ some v ∈ (headingAux p rest).map some) with h | h
      · exact absurd h (by simp)
      · simpa using h
    exact headingAux_mem rest p v hv'

theorem heading_properties_witness :
    (data_compute_heading_from_xy [((0 : ℝ), (0 : ℝ))])[0]? = some none ∧
    headingDeg (0, 0) (1, 0) = 0 ∧ headingDeg (0, 0) (0, 1) = 90 :=
  ⟨(heading_properties ((0 : ℝ), (0 : ℝ)) []).1,
    (heading_properties ((0 : ℝ), (0 : ℝ)) []).2.2.2.1,
    (heading_properties ((0 : ℝ), (0 : ℝ)) []).2.2.2.2⟩

/-- C5: row `i+1` of the yaw-rate column divides the heading difference wrapped
into `[-180, 180)` by the row's time delta; the wrap sends the heading step
`359 → 1` to `+2` and `1 → 359` to `-2`; a zero time delta yields the undefined
sentinel, never a silent zero. -/
theorem yaw_rate_properties (hs : List ℝ) (ds : List (Option ℝ)) (i : ℕ)
    (h0 h1 : ℝ) (d : Option ℝ) (e0 : hs[i]? = some h0) (e1 : hs[i + 1]? = some h1)
    (e2 : ds[i + 1]? = some d) :
    (data_compute_yaw_rate_from_heading hs ds)[i + 1]? = some (yawCell h0 h1 d) ∧
    (-180 ≤ wrap180 (h1 - h0) ∧ wrap180 (h1 - h0) < 180) ∧
    yawCell h0 h1 (some 0) = none ∧
    wrap180 (1 - 359) = 2 ∧ wrap180 (359 - 1) = -2 := by
  refine ⟨?_, wrap180_bounds _, by simp [yawCell], wrap180_wrap_up, wrap180_wrap_down⟩
  cases hs with
  | nil => simp at e0
  | cons hh hs' =>
    cases ds with
    | nil => simp at e2
    | cons dd ds' =>
      have e1' : hs'[i]? = some h1 := by simpa using e1
      have e2' : ds'[i]? = some d := by simpa using e2
      have hidx := yawAux_getElem hs' ds' hh i h0 h1 d e0 e1' e2'
      have hgoal : (data_compute_yaw_rate_from_heading (hh :: hs') (dd :: ds'))[i + 1]? =
          (yawAux hh hs' ds')[i]? := by
        simp [data_compute_yaw_rate_from_heading]
      rw [hgoal, hidx]

theorem yaw_rate_properties_witness :
    (([(359 : ℝ), 1] : List ℝ)[0]? = some 359 ∧
      ([(359 : ℝ), 1] : List ℝ)[0 + 1]? = some 1 ∧
      ([none, some (1 : ℝ)] : List (Option ℝ))[0 + 1]? = some (some 1)) ∧
    (data_compute_yaw_rate_from_heading [(359 : ℝ), 1] [none, some 1])[0 + 1]? =
      some (yawCell 359 1 (some 1)) :=
  ⟨⟨by simp, by simp, by simp⟩,
    (yaw_rate_properties [(359 : ℝ), 1] [none, some (1 : ℝ)] 0 359 1 (some 1)
      (by simp) (by simp) (by simp)).1⟩

/-- C6: the Temporal Differencer leaves `dt` undefined (a missing value, never
zero) on the first row and sets `dt[i] = timestamp[i] - timestamp[i-1]` for
every later row; a strictly increasing timestamp sequence gives only strictly
positive deltas; an unsorted sequence produces a negative delta (no error). -/
theorem dt_properties (t : ℝ) (rest : List ℝ) :
    (parse_time_and_compute_dt (t :: rest))[0]? = some none ∧
    (∀ (i : ℕ) (a b : ℝ), (t :: rest)[i]? = some a → (t :: rest)[i + 1]? = some b →
      (parse_time_and_compute_dt (t :: rest))[i + 1]? = some (some (b - a))) ∧
    (List.Chain' (· < ·) (t :: rest) →
      ∀ v : ℝ, some v ∈ parse_time_and_compute_dt (t :: rest) → 0 < v) ∧
    parse_time_and_compute_dt [(5 : ℝ), 3] = [none, some (-2)] := by
  refine ⟨by simp [parse_time_and_compute_dt], ?_, ?_,
    by norm_num [parse_time_and_compute_dt, dtAux]⟩
  · intro i a b ha hb
    have hb' : rest[i]? = some b := by simpa using hb
    have hidx := dtAux_getElem rest t i a b ha hb'
    have hgoal : (parse_time_and_compute_dt (t :: rest))[i + 1]? =
        ((dtAux t rest).map some)[i]? := by
      simp [parse_time_and_compute_dt]
    rw [hgoal]
    simp [hidx]
  · intro hc v hv
    have hv' : v ∈ dtAux t rest := by
      rcases (by simpa [parse_time_and_compute_dt] using hv :
          (some v : Option ℝ) = none ∨ some v ∈ (dtAux t rest).map some) with h | h
      · exact absurd h (by simp)
      · simpa using h
    exact dtAux_pos_of_chain rest t hc v hv'

theorem dt_properties_witness :
    (parse_time_and_compute_dt [(3 : ℝ), 5])[0 + 1]? = some (some (5 - 3)) :=
  (dt_properties 3 [5]).2.1 0 3 5 (by simp) (by simp)

/-- C7 counterexample: the code performs no validation of `min_distance`
whatsoever.  With the non-positive `min_distance = 0` and a non-empty trace
carrying the planar columns, `data_filter_points_by_distance` succeeds instead
of raising a `DegenerateDistanceError`. -/
theorem min_distance_nonpositive_no_error_cex :
    (data_filter_points_by_distance ("x") ("y") 0
        ⟨[("x"), ("y")], [fun _ => 0]⟩).isOk = true := by
  rfl

/-- C7 amended: for every non-empty trace with the planar columns present and
every non-positive `min_distance`, the Resampler raises no error at all: every
distance is `≥ 0 ≥ min_distance`, so every row is retained and the function
returns the full trace with the `min_distance` column set. -/
theorem min_distance_nonpositive_keeps_all (xCol yCol : String) (minD : ℝ)
    (df : DataFrame) (hne : df.rows ≠ []) (hm : minD ≤ 0)
    (hx : xCol ∈ df.columns) (hy : yCol ∈ df.columns) :
    data_filter_points_by_distance xCol yCol minD df =
      Except.ok
        { columns :=
            if ("min_distance") ∈ df.columns then df.columns
            else df.columns ++ [("min_distance")]
          rows := df.rows.map (fun row => Function.update row ("min_distance") minD) } := by
  obtain ⟨r, rs, hr⟩ := List.exists_cons_of_ne_nil hne
  unfold data_filter_points_by_distance
  rw [hr]
  rw [if_neg (by simp), if_neg (not_not_intro hx), if_neg (not_not_intro hy)]
  have h0 : ((r :: rs : List (String → ℝ)))[0]? = some r := by simp
  have hk : ∀ k, ((r :: rs : List (String → ℝ)))[1 + k]? = rs[k]? := by
    intro k
    rw [show 1 + k = k + 1 by omega]
    simp
  have hsel : (retained_indices minD ((r :: rs).map (rowXY xCol yCol))).filterMap
      (fun i => (r :: rs)[i]?) = r :: rs := by
    simp only [List.map_cons, retained_indices, List.filterMap_cons, h0]
    rw [retainedFrom_filterMap (rowXY xCol yCol) minD rs (rs.map (rowXY xCol yCol)) rfl
        (rowXY xCol yCol r) 1 (r :: rs) hk,
      keepAux_of_nonpos (rowXY xCol yCol) hm rs (rowXY xCol yCol r)]
  rw [hsel]

theorem min_distance_nonpositive_keeps_all_witness :
    (([fun _ => (0 : ℝ)] : List (String → ℝ)) ≠ [] ∧ (-1 : ℝ) ≤ 0 ∧
      ("x") ∈ [("x"), ("y")] ∧ ("y") ∈ [("x"), ("y")]) ∧
    data_filter_points_by_distance ("x") ("y") (-1) ⟨[("x"), ("y")], [fun _ => 0]⟩ =
      Except.ok
        { columns :=
            if ("min_distance") ∈ [("x"), ("y")] then [("x"), ("y")]
            else [("x"), ("y")] ++ [("min_distance")]
          rows := ([fun _ => (0 : ℝ)] : List (String → ℝ)).map
            (fun row => Function.update row ("min_distance") (-1)) } :=
  ⟨⟨by simp, by norm_num, by simp, by simp⟩,
    min_distance_nonpositive_keeps_all ("x") ("y") (-1) ⟨[("x"), ("y")], [fun _ => 0]⟩
      (by simp) (by norm_num) (by simp) (by simp)⟩

/-- C8 counterexample: with two smoothed variants on the trace and no explicit
selection parameter, the Projector does not fail: the tkinter dialog's dropdown
defaults to the first variant's method (`savitzky` here, returned on submit or
window close), and the function proceeds with that choice. -/
theorem ambiguous_smoothing_gui_cex :
    smoothingSelection
        [("GPS_lat_smooth_savitzky"), ("GPS_lat_smooth_gaussian"),
          ("GPS_lon_smooth_savitzky"), ("GPS_lon_smooth_gaussian")]
        ("GPS_lat") ("GPS_lon") ("savitzky") =
      Except.ok (("GPS_lat_smooth_savitzky"), ("GPS_lon_smooth_savitzky"), ("savitzky")) := by
  rfl

/-- C8 amended: when more than one smoothed variant is present, the Projector
resolves the ambiguity interactively: it proceeds with the method chosen in the
GUI (whose dropdown defaults to the first variant) whenever that method's
columns exist, and raises a ValueError naming the missing columns otherwise;
no `AmbiguousSmoothingSelectionError` exists. -/
theorem ambiguous_smoothing_resolution (columns : List String)
    (configLat configLon choice : String)
    (hmulti : 1 < (columns.filter (fun c => strStartsWith c ("GPS_lat_smooth_"))).length) :
    ((("GPS_lat_smooth_") ++ choice) ∈ columns ∧ (("GPS_lon_smooth_") ++ choice) ∈ columns →
      smoothingSelection columns configLat configLon choice =
        Except.ok ((("GPS_lat_smooth_") ++ choice, ("GPS_lon_smooth_") ++ choice, choice))) ∧
    (¬ ((("GPS_lat_smooth_") ++ choice) ∈ columns ∧ (("GPS_lon_smooth_") ++ choice) ∈ columns) →
      smoothingSelection columns configLat configLon choice =
        Except.error (("Invalid selection: ") ++ choice ++ (". Columns ") ++
          (("GPS_lat_smooth_") ++ choice) ++ (" and ") ++ (("GPS_lon_smooth_") ++ choice) ++
          (" not found."))) := by
  unfold smoothingSelection
  cases hf : columns.filter (fun c => strStartsWith c ("GPS_lat_smooth_")) with
  | nil => rw [hf] at hmulti; simp at hmulti
  | cons a t =>
    cases t with
    | nil => rw [hf] at hmulti; simp at hmulti
    | cons b t2 =>
      constructor
      · intro hsel
        rw [if_pos hsel]
      · intro hsel
        rw [if_neg hsel]

theorem ambiguous_smoothing_resolution_witness :
    (1 < (([("GPS_lat_smooth_savitzky"), ("GPS_lat_smooth_gaussian"),
        ("GPS_lon_smooth_savitzky"), ("GPS_lon_smooth_gaussian")] : List String).filter
          (fun c => strStartsWith c ("GPS_lat_smooth_"))).length) ∧
    smoothingSelection
        [("GPS_lat_smooth_savitzky"), ("GPS_lat_smooth_gaussian"),
          ("GPS_lon_smooth_savitzky"), ("GPS_lon_smooth_gaussian")]
        ("GPS_lat") ("GPS_lon") ("gaussian") =
      Except.ok ((("GPS_lat_smooth_") ++ ("gaussian"), ("GPS_lon_smooth_") ++ ("gaussian"),
        ("gaussian"))) :=
  ⟨by decide,
    (ambiguous_smoothing_resolution
        [("GPS_lat_smooth_savitzky"), ("GPS_lat_smooth_gaussian"),
          ("GPS_lon_smooth_savitzky"), ("GPS_lon_smooth_gaussian")]
        ("GPS_lat") ("GPS_lon") ("gaussian") (by decide)).1 (by decide)⟩

/-- C9: when the trace is shorter than the fixed Savitzky-Golay window length
51, the Smoothing Stage fails with the window-cannot-fit error raised by
`savgol_filter` in its default `interp` mode, rather than producing smoothed
columns. -/
theorem savgol_window_too_large_error (kernel : List ℝ → List ℝ) (lats lons : List ℝ)
    (h : lats.length < 51) :
    data_smooth_gps_savitzky kernel true true lats lons =
      Except.error
        ("If mode is interp, window_length must be less than or equal to the size of x.") := by
  simp [data_smooth_gps_savitzky, savgol_filter, h]

theorem savgol_window_too_large_error_witness :
    (([] : List ℝ).length < 51) ∧
    data_smooth_gps_savitzky id true true ([] : List ℝ) ([] : List ℝ) =
      Except.error
        ("If mode is interp, window_length must be less than or equal to the size of x.") :=
  ⟨by decide, savgol_window_too_large_error id [] [] (by decide)⟩

/-- C10: for an empty input trace the Resampler returns it unchanged and raises
no error, even when the configured planar columns are absent: the emptiness
check precedes the column validation, so the missing-column failure is
reachable only for non-empty input. -/
theorem empty_trace_returns_unchanged (xCol yCol : String) (minD : ℝ) (df : DataFrame)
    (h : df.rows = []) :
    data_filter_points_by_distance xCol yCol minD df = Except.ok df := by
  unfold data_filter_points_by_distance
  rw [h]
  simp

theorem empty_trace_returns_unchanged_witness :
    ((⟨[], []⟩ : DataFrame).rows = []) ∧
    data_filter_points_by_distance ("x") ("y") 0 ⟨[], []⟩ = Except.ok ⟨[], []⟩ :=
  ⟨rfl, empty_trace_returns_unchanged ("x") ("y") 0 ⟨[], []⟩ rfl⟩
